import Mathlib

/-!
Shallow embedding of the binary-classification accuracy calculator
`calculate_accuracy` defined in
`jupyter_notebooks/05_accuracy_standalone.ipynb` of the
MichaelAllen1966/2004_titanic repository.

The sequences of observed and predicted labels are modelled as lists of
integers.  Scalars produced by numpy true division are modelled by
`NpFloat`: an exact rational together with the IEEE special values that
numpy division by zero yields (positive and negative infinity and NaN).
Elementwise combination of two 1-D numpy arrays is modelled by
`broadcast2`, which implements numpy 1-D broadcasting: equal lengths act
pointwise, a length-one operand is stretched to the other length, and any
other combination of lengths raises a broadcast error.  The source
function performs no validation of its own, so the only error the
embedding can produce is that broadcast error.
-/

namespace TitanicAccuracy

/-- Value of a numpy float64 scalar as produced by the metric formulas of
the notebook: an exact rational, a signed infinity, or NaN. -/
inductive NpFloat where
  | fin (q : ℚ)
  | posInf
  | negInf
  | nan
  deriving DecidableEq, Repr

namespace NpFloat

/-- Negation of an extended value. -/
def neg : NpFloat → NpFloat
  | fin q => fin (-q)
  | posInf => negInf
  | negInf => posInf
  | nan => nan

/-- Addition of extended values, NaN propagating, opposite infinities
giving NaN. -/
def add : NpFloat → NpFloat → NpFloat
  | nan, _ => nan
  | _, nan => nan
  | fin a, fin b => fin (a + b)
  | fin _, posInf => posInf
  | fin _, negInf => negInf
  | posInf, fin _ => posInf
  | negInf, fin _ => negInf
  | posInf, posInf => posInf
  | negInf, negInf => negInf
  | posInf, negInf => nan
  | negInf, posInf => nan

/-- Multiplication of extended values, NaN propagating, zero times an
infinity giving NaN. -/
def mul : NpFloat → NpFloat → NpFloat
  | nan, _ => nan
  | _, nan => nan
  | fin a, fin b => fin (a * b)
  | fin a, posInf => if a = 0 then nan else if 0 < a then posInf else negInf
  | fin a, negInf => if a = 0 then nan else if 0 < a then negInf else posInf
  | posInf, fin a => if a = 0 then nan else if 0 < a then posInf else negInf
  | negInf, fin a => if a = 0 then nan else if 0 < a then negInf else posInf
  | posInf, posInf => posInf
  | posInf, negInf => negInf
  | negInf, posInf => negInf
  | negInf, negInf => posInf

/-- Division of extended values with the numpy conventions for a zero
denominator: zero over zero is NaN and a nonzero numerator over zero is a
signed infinity (numpy true division treats the zero denominator as a
positive zero). -/
def div : NpFloat → NpFloat → NpFloat
  | nan, _ => nan
  | _, nan => nan
  | fin a, fin b =>
      if b = 0 then (if a = 0 then nan else if 0 < a then posInf else negInf)
      else fin (a / b)
  | fin _, posInf => fin 0
  | fin _, negInf => fin 0
  | posInf, fin b => if b < 0 then negInf else posInf
  | negInf, fin b => if b < 0 then posInf else negInf
  | posInf, _ => nan
  | negInf, _ => nan

/-- Subtraction, defined from addition and negation. -/
def sub (x y : NpFloat) : NpFloat := add x (neg y)

end NpFloat

instance : Neg NpFloat := ⟨NpFloat.neg⟩

instance : Add NpFloat := ⟨NpFloat.add⟩

instance : Sub NpFloat := ⟨NpFloat.sub⟩

instance : Mul NpFloat := ⟨NpFloat.mul⟩

instance : Div NpFloat := ⟨NpFloat.div⟩

/-- Errors raised by the numpy layer: incompatible 1-D shapes in an
elementwise operation. -/
inductive NpError where
  | broadcastMismatch
  deriving DecidableEq, Repr

/-- Elementwise combination of two 1-D arrays under numpy broadcasting:
equal lengths act pointwise, a length-one operand is stretched to the
other length, any other combination of lengths fails. -/
def broadcast2 {α β γ : Type} (f : α → β → γ) (xs : List α) (ys : List β) :
    Except NpError (List γ) :=
  if xs.length = ys.length then Except.ok (List.zipWith f xs ys)
  else
    match xs, ys with
    | [x], ys => Except.ok (ys.map (fun y => f x y))
    | xs, [y] => Except.ok (xs.map (fun x => f x y))
    | _, _ => Except.error NpError.broadcastMismatch

/-- The numpy sum of a boolean array: the number of true entries. -/
def npSum (xs : List Bool) : ℕ := xs.countP (fun b => b)

/-- The numpy mean of a boolean array: true count over length; on an
empty array numpy returns NaN, which the zero-over-zero case of the
division produces. -/
def npMean (xs : List Bool) : NpFloat :=
  NpFloat.fin (npSum xs : ℚ) / NpFloat.fin (xs.length : ℚ)

/-- Source line: `observed_positives = observed == 1` (elementwise
comparison of an integer array with the scalar 1). -/
def posMask (xs : List ℤ) : List Bool := xs.map (fun x => decide (x = 1))

/-- Source line: `observed_negatives = observed == 0` (elementwise
comparison of an integer array with the scalar 0). -/
def negMask (xs : List ℤ) : List Bool := xs.map (fun x => decide (x = 0))

/-- Source line:
`true_positives = (predicted_positives == 1) & (observed_positives == 1)`;
comparing a boolean mask with the scalar 1 yields the mask itself. -/
def true_positives_mask (observed predicted : List ℤ) : Except NpError (List Bool) :=
  broadcast2 (fun p o => p && o) (posMask predicted) (posMask observed)

/-- Source line:
`false_positives = (predicted_positives == 1) & (observed_positives == 0)`;
comparing a boolean mask with the scalar 0 negates it elementwise. -/
def false_positives_mask (observed predicted : List ℤ) : Except NpError (List Bool) :=
  broadcast2 (fun p o => p && o) (posMask predicted) ((posMask observed).map (fun b => !b))

/-- Source line:
`true_negatives = (predicted_negatives == 1) & (observed_negatives == 1)`. -/
def true_negatives_mask (observed predicted : List ℤ) : Except NpError (List Bool) :=
  broadcast2 (fun p o => p && o) (negMask predicted) (negMask observed)

/-- Source line:
`false_negatives = (predicted_negatives == 1) & (observed_negatives == 0)`:
the predicted-negative mask intersected with the negation of the
observed-negative mask. -/
def false_negatives_mask (observed predicted : List ℤ) : Except NpError (List Bool) :=
  broadcast2 (fun p o => p && o) (negMask predicted) ((negMask observed).map (fun b => !b))

/-- The dictionary of 18 named metrics returned by `calculate_accuracy`,
one field per key, in the order the source inserts them. -/
structure Results where
  observed_positive_rate : NpFloat
  observed_negative_rate : NpFloat
  predicted_positive_rate : NpFloat
  predicted_negative_rate : NpFloat
  accuracy : NpFloat
  precision : NpFloat
  «recall» : NpFloat
  f1 : NpFloat
  sensitivity : NpFloat
  specificity : NpFloat
  positive_likelihood : NpFloat
  negative_likelihood : NpFloat
  false_positive_rate : NpFloat
  false_negative_rate : NpFloat
  true_positive_rate : NpFloat
  true_negative_rate : NpFloat
  positive_predictive_value : NpFloat
  negative_predictive_value : NpFloat
  deriving DecidableEq, Repr

/-- The metric arithmetic of the source, applied once the intersection
masks and the agreement mask `predicted == observed` are available.  Each
field transcribes one assignment of the source; `sensitivity = recall`,
`true_positive_rate = sensitivity` and `true_negative_rate = specificity`
are the literal aliases of the source, and `positive_predictive_value`
and `negative_predictive_value` repeat the recall and specificity
expressions exactly as the source writes them. -/
def mkResults (observed predicted : List ℤ)
    (true_positives false_positives true_negatives agree : List Bool) : Results :=
  let precision := NpFloat.fin (npSum true_positives : ℚ) /
    NpFloat.fin ((npSum true_positives + npSum false_positives : ℕ) : ℚ)
  let «recall» := NpFloat.fin (npSum true_positives : ℚ) /
    NpFloat.fin (npSum (posMask observed) : ℚ)
  let specificity := NpFloat.fin (npSum true_negatives : ℚ) /
    NpFloat.fin (npSum (negMask observed) : ℚ)
  { observed_positive_rate := npMean (posMask observed)
    observed_negative_rate := npMean (negMask observed)
    predicted_positive_rate := npMean (posMask predicted)
    predicted_negative_rate := npMean (negMask predicted)
    accuracy := npMean agree
    precision := precision
    «recall» := «recall»
    f1 := NpFloat.fin 2 * ((precision * «recall») / (precision + «recall»))
    sensitivity := «recall»
    specificity := specificity
    positive_likelihood := «recall» / (NpFloat.fin 1 - specificity)
    negative_likelihood := (NpFloat.fin 1 - «recall») / specificity
    false_positive_rate := NpFloat.fin 1 - specificity
    false_negative_rate := NpFloat.fin 1 - «recall»
    true_positive_rate := «recall»
    true_negative_rate := specificity
    positive_predictive_value := NpFloat.fin (npSum true_positives : ℚ) /
      NpFloat.fin (npSum (posMask observed) : ℚ)
    negative_predictive_value := NpFloat.fin (npSum true_negatives : ℚ) /
      NpFloat.fin (npSum (negMask observed) : ℚ) }

/-- The `calculate_accuracy` function of the notebook.  The four label
masks are pure maps; the first operation that combines a predicted-side
array with an observed-side array is the elementwise `&` of the
true-positive line, so that is where a shape mismatch surfaces, exactly
as in the source.  The unused false-negative mask is still computed, as
the source computes it. -/
def calculate_accuracy (observed predicted : List ℤ) : Except NpError Results := do
  let true_positives ← true_positives_mask observed predicted
  let false_positives ← false_positives_mask observed predicted
  let true_negatives ← true_negatives_mask observed predicted
  let _false_negatives ← false_negatives_mask observed predicted
  let agree ← broadcast2 (fun p o => decide (p = o)) predicted observed
  return mkResults observed predicted true_positives false_positives true_negatives agree

/-- Transcribed from the wording of the claims: TP is the count of
indices with predicted equal to 1 and observed equal to 1. -/
def specTP (observed predicted : List ℤ) : ℕ :=
  (List.zip predicted observed).countP (fun q => decide (q.1 = 1) && decide (q.2 = 1))

/-- Transcribed from the wording of the claims: TN is the count of
indices with predicted equal to 0 and observed equal to 0. -/
def specTN (observed predicted : List ℤ) : ℕ :=
  (List.zip predicted observed).countP (fun q => decide (q.1 = 0) && decide (q.2 = 0))

/-- Modelled from the wording of the spec: the conventional
false-negative mask, predicted equal to 0 AND observed equal to 1,
elementwise. -/
def conventional_false_negatives (observed predicted : List ℤ) : List Bool :=
  List.zipWith (fun p o => decide (p = 0) && decide (o = 1)) predicted observed

/-- The observed labels of the worked example of the notebook. -/
def observedExample : List ℤ := [0, 0, 1, 0, 1, 0, 1, 0, 1, 0]

/-- The predicted labels of the worked example of the notebook. -/
def predictedExample : List ℤ := [0, 0, 1, 0, 1, 0, 1, 0, 0, 1]

/-- Division of finite values with a nonzero denominator is exact
rational division. -/
theorem NpFloat.fin_div_fin (a b : ℚ) (hb : b ≠ 0) :
    NpFloat.fin a / NpFloat.fin b = NpFloat.fin (a / b) := by
  show NpFloat.div (NpFloat.fin a) (NpFloat.fin b) = _
  simp [NpFloat.div, hb]

/-- Zero over zero is NaN, as in numpy true division of integer counts. -/
theorem NpFloat.zero_div_zero : NpFloat.fin 0 / NpFloat.fin 0 = NpFloat.nan := by
  show NpFloat.div (NpFloat.fin 0) (NpFloat.fin 0) = _
  simp [NpFloat.div]

/-- Addition of finite values is exact rational addition. -/
theorem NpFloat.fin_add_fin (a b : ℚ) :
    NpFloat.fin a + NpFloat.fin b = NpFloat.fin (a + b) := rfl

/-- Multiplication of finite values is exact rational multiplication. -/
theorem NpFloat.fin_mul_fin (a b : ℚ) :
    NpFloat.fin a * NpFloat.fin b = NpFloat.fin (a * b) := rfl

/-- Subtraction of finite values is exact rational subtraction. -/
theorem NpFloat.fin_sub_fin (a b : ℚ) :
    NpFloat.fin a - NpFloat.fin b = NpFloat.fin (a - b) := by
  show NpFloat.add (NpFloat.fin a) (NpFloat.neg (NpFloat.fin b)) = _
  simp [NpFloat.add, NpFloat.neg, sub_eq_add_neg]

/-- When the two operand lengths agree, broadcasting is plain pointwise
combination. -/
theorem broadcast2_of_length_eq {α β γ : Type} {f : α → β → γ} {xs : List α} {ys : List β}
    (h : xs.length = ys.length) :
    broadcast2 f xs ys = Except.ok (List.zipWith f xs ys) := by
  simp [broadcast2, h]

/-- When the two operand lengths differ and neither operand has length
one, broadcasting fails. -/
theorem broadcast2_error {α β γ : Type} {f : α → β → γ} {xs : List α} {ys : List β}
    (h : xs.length ≠ ys.length) (hx : xs.length ≠ 1) (hy : ys.length ≠ 1) :
    broadcast2 f xs ys = Except.error NpError.broadcastMismatch := by
  rcases xs with _ | ⟨a, _ | ⟨a2, as⟩⟩ <;> rcases ys with _ | ⟨b, _ | ⟨b2, bs⟩⟩ <;>
    simp_all [broadcast2]

/-- Binding a successful Except value. -/
theorem except_ok_bind {α β : Type} (a : α) (f : α → Except NpError β) :
    (Except.ok a : Except NpError α) >>= f = f a := rfl

/-- Binding a failed Except value. -/
theorem except_error_bind {α β : Type} (e : NpError) (f : α → Except NpError β) :
    (Except.error e : Except NpError α) >>= f = Except.error e := rfl

/-- On equal-length inputs every broadcast succeeds and
`calculate_accuracy` returns the record assembled from the pointwise
masks. -/
theorem calc_ok (observed predicted : List ℤ) (hlen : observed.length = predicted.length) :
    calculate_accuracy observed predicted = Except.ok (mkResults observed predicted
      (List.zipWith (fun p o => p && o) (posMask predicted) (posMask observed))
      (List.zipWith (fun p o => p && o) (posMask predicted) ((posMask observed).map (fun b => !b)))
      (List.zipWith (fun p o => p && o) (negMask predicted) (negMask observed))
      (List.zipWith (fun p o => decide (p = o)) predicted observed)) := by
  have h1 : (posMask predicted).length = (posMask observed).length := by
    simp [posMask, hlen]
  have h2 : (posMask predicted).length = ((posMask observed).map (fun b => !b)).length := by
    simp [posMask, hlen]
  have h3 : (negMask predicted).length = (negMask observed).length := by
    simp [negMask, hlen]
  have h4 : (negMask predicted).length = ((negMask observed).map (fun b => !b)).length := by
    simp [negMask, hlen]
  simp only [calculate_accuracy, true_positives_mask, false_positives_mask,
    true_negatives_mask, false_negatives_mask,
    broadcast2_of_length_eq h1, broadcast2_of_length_eq h2,
    broadcast2_of_length_eq h3, broadcast2_of_length_eq h4,
    broadcast2_of_length_eq hlen.symm, except_ok_bind]
  rfl

/-- Counting the true entries of a pointwise combination is counting the
pairs of the zipped lists satisfying the combination. -/
theorem countP_zipWith {α β : Type} (f : α → β → Bool) :
    ∀ (l : List α) (l' : List β),
      (List.zipWith f l l').countP (fun b => b) =
        (List.zip l l').countP (fun q => f q.1 q.2)
  | [], _ => by simp
  | _ :: _, [] => by simp
  | a :: l, b :: l' => by
      simp [List.countP_cons, countP_zipWith f l l']

/-- The true count of the positive mask is the count of entries equal
to 1. -/
theorem npSum_posMask (l : List ℤ) :
    npSum (posMask l) = l.countP (fun x => decide (x = 1)) := by
  rw [npSum, posMask, List.countP_map]
  rfl

/-- The true count of the negative mask is the count of entries equal
to 0. -/
theorem npSum_negMask (l : List ℤ) :
    npSum (negMask l) = l.countP (fun x => decide (x = 0)) := by
  rw [npSum, negMask, List.countP_map]
  rfl

/-- The true-positive mask count of the code equals the count named TP in
the claims. -/
theorem tp_mask_count (observed predicted : List ℤ) :
    (List.zipWith (fun p o => p && o) (posMask predicted) (posMask observed)).countP
        (fun b => b) = specTP observed predicted := by
  rw [posMask, posMask, List.zipWith_map, countP_zipWith]
  rfl

/-- The true-negative mask count of the code equals the count named TN in
the claims. -/
theorem tn_mask_count (observed predicted : List ℤ) :
    (List.zipWith (fun p o => p && o) (negMask predicted) (negMask observed)).countP
        (fun b => b) = specTN observed predicted := by
  rw [negMask, negMask, List.zipWith_map, countP_zipWith]
  rfl

/-- Splitting the true count of a mask by a second mask: the entries of
`l` that are true split into those where `m` is also true and those where
`m` is false. -/
theorem countP_and_split :
    ∀ (l m : List Bool), l.length = m.length →
      (List.zipWith (fun p o => p && o) l m).countP (fun b => b) +
        (List.zipWith (fun p o => p && o) l (m.map (fun b => !b))).countP (fun b => b) =
        l.countP (fun b => b)
  | [], [], _ => by simp
  | [], _ :: _, h => by simp at h
  | _ :: _, [], h => by simp at h
  | a :: l, b :: m, h => by
      have ih := countP_and_split l m (by simpa using h)
      cases a <;> cases b <;> simp [List.countP_cons] <;> omega

/-- Every entry of an integer list falls into exactly one of three
categories: equal to 1, equal to 0, or outside the label set. -/
theorem count01_partition (l : List ℤ) :
    l.countP (fun x => decide (x = 1)) + l.countP (fun x => decide (x = 0)) +
      l.countP (fun x => decide (x ≠ 0 ∧ x ≠ 1)) = l.length := by
  induction l with
  | nil => simp
  | cons a l ih =>
      have ha : ((if decide (a = 1) then 1 else 0) + (if decide (a = 0) then 1 else 0) +
          (if decide (a ≠ 0 ∧ a ≠ 1) then 1 else 0) : ℕ) = 1 := by
        rcases eq_or_ne a 1 with rfl | h1
        · simp
        · rcases eq_or_ne a 0 with rfl | h0
          · simp
          · simp [h1, h0]
      simp only [List.countP_cons, List.length_cons]
      omega

/-- The counts of ones and zeros fall short of the length exactly when
some entry is outside the label set. -/
theorem count01_lt_iff (l : List ℤ) :
    l.countP (fun x => decide (x = 1)) + l.countP (fun x => decide (x = 0)) < l.length ↔
      ∃ x ∈ l, x ≠ 0 ∧ x ≠ 1 := by
  have hp := count01_partition l
  have hpos : (∃ x ∈ l, x ≠ 0 ∧ x ≠ 1) ↔
      0 < l.countP (fun x => decide (x ≠ 0 ∧ x ≠ 1)) := by
    rw [List.countP_pos_iff]
    simp
  rw [hpos]
  omega

/-- On {0,1} labels the agreement count splits exactly into the
true-positive and true-negative mask counts. -/
theorem agree_count :
    ∀ (predicted observed : List ℤ),
      (∀ x ∈ observed, x = 0 ∨ x = 1) → (∀ x ∈ predicted, x = 0 ∨ x = 1) →
      (List.zipWith (fun p o => decide (p = o)) predicted observed).countP (fun b => b) =
        (List.zipWith (fun p o => p && o) (posMask predicted) (posMask observed)).countP
          (fun b => b) +
        (List.zipWith (fun p o => p && o) (negMask predicted) (negMask observed)).countP
          (fun b => b)
  | [], _, _, _ => by simp [posMask, negMask]
  | _ :: _, [], _, _ => by simp [posMask, negMask]
  | p :: ps, o :: os, ho, hp => by
      have ih := agree_count ps os (fun x hx => ho x (List.mem_cons_of_mem _ hx))
        (fun x hx => hp x (List.mem_cons_of_mem _ hx))
      have hohead := ho o (List.mem_cons_self o os)
      have hphead := hp p (List.mem_cons_self p ps)
      rcases hphead with rfl | rfl <;> rcases hohead with rfl | rfl <;>
        simp [posMask, negMask, List.countP_cons] at ih ⊢ <;> omega

/-- C1: for every pair of equal-length non-empty sequences with all
elements in {0,1}, the accuracy value returned by calculate_accuracy lies
in [0,1] and equals exactly (TP+TN)/N, with TP the count of indices where
predicted and observed are both 1, TN the count where both are 0, and N
the common length. -/
theorem c1_accuracy_exact (observed predicted : List ℤ)
    (hlen : observed.length = predicted.length) (hne : observed ≠ [])
    (ho : ∀ x ∈ observed, x = 0 ∨ x = 1) (hp : ∀ x ∈ predicted, x = 0 ∨ x = 1) :
    ∃ r q, calculate_accuracy observed predicted = Except.ok r ∧
      r.accuracy = NpFloat.fin q ∧ 0 ≤ q ∧ q ≤ 1 ∧
      q = ((specTP observed predicted : ℚ) + (specTN observed predicted : ℚ)) /
        (observed.length : ℚ) := by
  have hN : 0 < observed.length := List.length_pos.mpr hne
  have hNq : (0 : ℚ) < (observed.length : ℚ) := by exact_mod_cast hN
  have hlenagree :
      (List.zipWith (fun p o => decide (p = o)) predicted observed).length =
        observed.length := by
    rw [List.length_zipWith, hlen, Nat.min_self]
  refine ⟨_, (((List.zipWith (fun p o => decide (p = o)) predicted observed).countP
      (fun b => b) : ℚ) / (observed.length : ℚ)),
    calc_ok observed predicted hlen, ?_, ?_, ?_, ?_⟩
  · show npMean (List.zipWith (fun p o => decide (p = o)) predicted observed) = _
    rw [npMean, npSum, hlenagree, NpFloat.fin_div_fin _ _ (ne_of_gt hNq)]
  · positivity
  · rw [div_le_one hNq]
    have hcount : (List.zipWith (fun p o => decide (p = o)) predicted observed).countP
        (fun b => b) ≤
        (List.zipWith (fun p o => decide (p = o)) predicted observed).length :=
      List.countP_le_length _
    rw [hlenagree] at hcount
    exact_mod_cast hcount
  · have hsplit := agree_count predicted observed ho hp
    rw [tp_mask_count, tn_mask_count] at hsplit
    rw [hsplit]
    push_cast
    ring

/-- C1 witness: the theorem applied at a concrete valid input. -/
theorem c1_accuracy_exact_witness :
    ∃ r q, calculate_accuracy [1, 0] [1, 1] = Except.ok r ∧
      r.accuracy = NpFloat.fin q ∧ 0 ≤ q ∧ q ≤ 1 ∧
      q = ((specTP [1, 0] [1, 1] : ℚ) + (specTN [1, 0] [1, 1] : ℚ)) /
        (([1, 0] : List ℤ).length : ℚ) :=
  c1_accuracy_exact [1, 0] [1, 1] (by decide) (by decide) (by decide) (by decide)

/-- C6: for every valid input the positive predictive value is the TP
count divided by the observed-positive count, hence identical to the
returned recall, and the negative predictive value is the TN count
divided by the observed-negative count, hence identical to the returned
specificity. -/
theorem c6_predictive_values_reuse (observed predicted : List ℤ)
    (hlen : observed.length = predicted.length) (hne : observed ≠ [])
    (ho : ∀ x ∈ observed, x = 0 ∨ x = 1) (hp : ∀ x ∈ predicted, x = 0 ∨ x = 1) :
    ∃ r, calculate_accuracy observed predicted = Except.ok r ∧
      r.positive_predictive_value =
        NpFloat.fin (specTP observed predicted : ℚ) /
          NpFloat.fin (observed.countP (fun x => decide (x = 1)) : ℚ) ∧
      r.positive_predictive_value = r.recall ∧
      r.negative_predictive_value =
        NpFloat.fin (specTN observed predicted : ℚ) /
          NpFloat.fin (observed.countP (fun x => decide (x = 0)) : ℚ) ∧
      r.negative_predictive_value = r.specificity := by
  refine ⟨_, calc_ok observed predicted hlen, ?_, rfl, ?_, rfl⟩
  · show NpFloat.fin (npSum (List.zipWith (fun p o => p && o) (posMask predicted)
        (posMask observed)) : ℚ) / NpFloat.fin (npSum (posMask observed) : ℚ) = _
    rw [npSum, tp_mask_count, npSum_posMask]
  · show NpFloat.fin (npSum (List.zipWith (fun p o => p && o) (negMask predicted)
        (negMask observed)) : ℚ) / NpFloat.fin (npSum (negMask observed) : ℚ) = _
    rw [npSum, tn_mask_count, npSum_negMask]

/-- C6 witness: the theorem applied at a concrete valid input. -/
theorem c6_predictive_values_reuse_witness :
    ∃ r, calculate_accuracy [0, 1] [0, 1] = Except.ok r ∧
      r.positive_predictive_value =
        NpFloat.fin (specTP [0, 1] [0, 1] : ℚ) /
          NpFloat.fin (([0, 1] : List ℤ).countP (fun x => decide (x = 1)) : ℚ) ∧
      r.positive_predictive_value = r.recall ∧
      r.negative_predictive_value =
        NpFloat.fin (specTN [0, 1] [0, 1] : ℚ) /
          NpFloat.fin (([0, 1] : List ℤ).countP (fun x => decide (x = 0)) : ℚ) ∧
      r.negative_predictive_value = r.specificity :=
  c6_predictive_values_reuse [0, 1] [0, 1] (by decide) (by decide) (by decide) (by decide)

/-- Pointwise form of the false-negative mask on {0,1} observed labels:
intersecting the predicted-negative mask with the negation of the
observed-negative mask is the conventional mask predicted equal 0 AND
observed equal 1. -/
theorem fn_mask_pointwise :
    ∀ (predicted observed : List ℤ), (∀ x ∈ observed, x = 0 ∨ x = 1) →
      List.zipWith (fun p o => p && o) (negMask predicted)
          ((negMask observed).map (fun b => !b)) =
        List.zipWith (fun p o => decide (p = 0) && decide (o = 1)) predicted observed
  | [], _, _ => by simp [negMask]
  | _ :: _, [], _ => by simp [negMask]
  | p :: ps, o :: os, ho => by
      have ih := fn_mask_pointwise ps os (fun x hx => ho x (List.mem_cons_of_mem _ hx))
      have hohead := ho o (List.mem_cons_self o os)
      rcases hohead with rfl | rfl <;> simp [negMask] at ih ⊢ <;> exact ih

/-- C7: for every pair of equal-length sequences with all elements in
{0,1}, the false-negative mask computed by the code (predicted-negative
mask AND NOT observed-negative mask) equals elementwise the conventional
mask (predicted equal 0 AND observed equal 1). -/
theorem c7_false_negative_mask_equiv (observed predicted : List ℤ)
    (hlen : observed.length = predicted.length)
    (ho : ∀ x ∈ observed, x = 0 ∨ x = 1) (hp : ∀ x ∈ predicted, x = 0 ∨ x = 1) :
    false_negatives_mask observed predicted =
      Except.ok (conventional_false_negatives observed predicted) := by
  have h4 : (negMask predicted).length = ((negMask observed).map (fun b => !b)).length := by
    simp [negMask, hlen]
  rw [false_negatives_mask, broadcast2_of_length_eq h4, fn_mask_pointwise predicted observed ho]
  rfl

/-- C7 witness: the theorem applied at a concrete valid input. -/
theorem c7_false_negative_mask_equiv_witness :
    false_negatives_mask [0, 1, 1] [1, 0, 1] =
      Except.ok (conventional_false_negatives [0, 1, 1] [1, 0, 1]) :=
  c7_false_negative_mask_equiv [0, 1, 1] [1, 0, 1] (by decide) (by decide) (by decide)

/-- C8: for every valid input the returned recall, sensitivity and
true positive rate are identical, and the returned specificity and
true negative rate are identical. -/
theorem c8_alias_metrics (observed predicted : List ℤ)
    (hlen : observed.length = predicted.length) (hne : observed ≠ [])
    (ho : ∀ x ∈ observed, x = 0 ∨ x = 1) (hp : ∀ x ∈ predicted, x = 0 ∨ x = 1) :
    ∃ r, calculate_accuracy observed predicted = Except.ok r ∧
      r.recall = r.sensitivity ∧ r.sensitivity = r.true_positive_rate ∧
      r.specificity = r.true_negative_rate :=
  ⟨_, calc_ok observed predicted hlen, rfl, rfl, rfl⟩

/-- C8 witness: the theorem applied at a concrete valid input. -/
theorem c8_alias_metrics_witness :
    ∃ r, calculate_accuracy [1, 0] [0, 0] = Except.ok r ∧
      r.recall = r.sensitivity ∧ r.sensitivity = r.true_positive_rate ∧
      r.specificity = r.true_negative_rate :=
  c8_alias_metrics [1, 0] [0, 0] (by decide) (by decide) (by decide) (by decide)

/-- C4 counterexample: the lengths 1 and 2 differ, yet calculate_accuracy
returns a full result mapping instead of failing, because numpy
broadcasting stretches the length-one array; the claim that every length
mismatch fails is therefore false at this input. -/
theorem c4_counterexample_length_one :
    (([1] : List ℤ).length ≠ ([1, 0] : List ℤ).length) ∧
    (calculate_accuracy [1] [1, 0]).toOption.isSome = true :=
  ⟨by decide, rfl⟩

/-- C4 amended: when the input lengths differ and neither input has
length one, calculate_accuracy fails immediately at the first elementwise
mask combination with the numpy broadcast error, and no metrics are
produced; a length-one input is instead broadcast and a full result is
returned. -/
theorem c4_shape_mismatch_amended (observed predicted : List ℤ)
    (hne : observed.length ≠ predicted.length)
    (ho : observed.length ≠ 1) (hp : predicted.length ≠ 1) :
    calculate_accuracy observed predicted = Except.error NpError.broadcastMismatch := by
  have h1 : (posMask predicted).length ≠ (posMask observed).length := by
    simp only [posMask, List.length_map]
    exact fun h => hne h.symm
  have hx : (posMask predicted).length ≠ 1 := by simpa [posMask] using hp
  have hy : (posMask observed).length ≠ 1 := by simpa [posMask] using ho
  simp only [calculate_accuracy, true_positives_mask, broadcast2_error h1 hx hy,
    except_error_bind]

/-- C4 witness: the amended theorem applied at concrete mismatched
lengths 2 and 3. -/
theorem c4_shape_mismatch_amended_witness :
    calculate_accuracy [1, 0] [1, 0, 1] = Except.error NpError.broadcastMismatch :=
  c4_shape_mismatch_amended [1, 0] [1, 0, 1] (by decide) (by decide) (by decide)

/-- C10 counterexample: observed = [2, 1] holds the invalid label 2 and
predicted = [1, 0] is valid; the four mask counts are 0, 1, 0, 1 and
still sum to the length 2, so the four counts do partition the cases and
the claim that they no longer partition is false at this input. -/
theorem c10_counterexample_partition_holds :
    ((2 : ℤ) ∈ ([2, 1] : List ℤ) ∧ (2 : ℤ) ≠ 0 ∧ (2 : ℤ) ≠ 1) ∧
    (true_positives_mask [2, 1] [1, 0]).map npSum = Except.ok 0 ∧
    (false_positives_mask [2, 1] [1, 0]).map npSum = Except.ok 1 ∧
    (true_negatives_mask [2, 1] [1, 0]).map npSum = Except.ok 0 ∧
    (false_negatives_mask [2, 1] [1, 0]).map npSum = Except.ok 1 ∧
    0 + 1 + 0 + 1 = ([2, 1] : List ℤ).length :=
  ⟨by decide, rfl, rfl, rfl, rfl, rfl⟩

/-- C10 amended: on equal-length inputs calculate_accuracy always returns
a full result mapping without raising any error; an element outside {0,1}
is counted in neither the positive nor the negative mask, so when one
occurs in observed the returned observed positive and negative rates sum
to a rational strictly below one; and the four counts TP, FP, TN, FN fail
to partition the N cases (their sum falls short of N) exactly when an
element outside {0,1} occurs in predicted. -/
theorem c10_invalid_labels_amended (observed predicted : List ℤ)
    (hlen : observed.length = predicted.length) (hne : observed ≠ []) :
    ∃ r ctp cfp ctn cfn,
      calculate_accuracy observed predicted = Except.ok r ∧
      (true_positives_mask observed predicted).map npSum = Except.ok ctp ∧
      (false_positives_mask observed predicted).map npSum = Except.ok cfp ∧
      (true_negatives_mask observed predicted).map npSum = Except.ok ctn ∧
      (false_negatives_mask observed predicted).map npSum = Except.ok cfn ∧
      ((∃ x ∈ observed, x ≠ 0 ∧ x ≠ 1) →
        ∃ s, r.observed_positive_rate + r.observed_negative_rate = NpFloat.fin s ∧ s < 1) ∧
      (ctp + cfp + ctn + cfn < observed.length ↔ ∃ x ∈ predicted, x ≠ 0 ∧ x ≠ 1) := by
  have h1 : (posMask predicted).length = (posMask observed).length := by
    simp [posMask, hlen]
  have h2 : (posMask predicted).length = ((posMask observed).map (fun b => !b)).length := by
    simp [posMask, hlen]
  have h3 : (negMask predicted).length = (negMask observed).length := by
    simp [negMask, hlen]
  have h4 : (negMask predicted).length = ((negMask observed).map (fun b => !b)).length := by
    simp [negMask, hlen]
  refine ⟨_,
    npSum (List.zipWith (fun p o => p && o) (posMask predicted) (posMask observed)),
    npSum (List.zipWith (fun p o => p && o) (posMask predicted)
      ((posMask observed).map (fun b => !b))),
    npSum (List.zipWith (fun p o => p && o) (negMask predicted) (negMask observed)),
    npSum (List.zipWith (fun p o => p && o) (negMask predicted)
      ((negMask observed).map (fun b => !b))),
    calc_ok observed predicted hlen, ?_, ?_, ?_, ?_, ?_, ?_⟩
  · rw [true_positives_mask, broadcast2_of_length_eq h1]
    rfl
  · rw [false_positives_mask, broadcast2_of_length_eq h2]
    rfl
  · rw [true_negatives_mask, broadcast2_of_length_eq h3]
    rfl
  · rw [false_negatives_mask, broadcast2_of_length_eq h4]
    rfl
  · rintro ⟨x, hx, hx01⟩
    have hN : 0 < observed.length := List.length_pos.mpr hne
    have hNq : (0 : ℚ) < (observed.length : ℚ) := by exact_mod_cast hN
    have hlp : (posMask observed).length = observed.length := by simp [posMask]
    have hln : (negMask observed).length = observed.length := by simp [negMask]
    refine ⟨((observed.countP (fun x => decide (x = 1)) : ℚ) +
      (observed.countP (fun x => decide (x = 0)) : ℚ)) / (observed.length : ℚ), ?_, ?_⟩
    · show npMean (posMask observed) + npMean (negMask observed) = _
      rw [npMean, npMean, hlp, hln, npSum_posMask, npSum_negMask,
        NpFloat.fin_div_fin _ _ (ne_of_gt hNq), NpFloat.fin_div_fin _ _ (ne_of_gt hNq),
        NpFloat.fin_add_fin, div_add_div_same]
    · rw [div_lt_one hNq]
      have hlt := (count01_lt_iff observed).mpr ⟨x, hx, hx01⟩
      exact_mod_cast hlt
  · have e1 := countP_and_split (posMask predicted) (posMask observed) h1
    have e2 := countP_and_split (negMask predicted) (negMask observed) h3
    have e1' := npSum_posMask predicted
    have e2' := npSum_negMask predicted
    simp only [npSum] at e1' e2' ⊢
    have h7 := count01_lt_iff predicted
    rw [hlen]
    constructor
    · intro h
      exact h7.mp (by omega)
    · intro h
      have := h7.mpr h
      omega

/-- C10 witness: the amended theorem applied at a concrete input with an
invalid label in each sequence. -/
theorem c10_invalid_labels_amended_witness :
    ∃ r ctp cfp ctn cfn,
      calculate_accuracy [2, 1] [1, 2] = Except.ok r ∧
      (true_positives_mask [2, 1] [1, 2]).map npSum = Except.ok ctp ∧
      (false_positives_mask [2, 1] [1, 2]).map npSum = Except.ok cfp ∧
      (true_negatives_mask [2, 1] [1, 2]).map npSum = Except.ok ctn ∧
      (false_negatives_mask [2, 1] [1, 2]).map npSum = Except.ok cfn ∧
      ((∃ x ∈ ([2, 1] : List ℤ), x ≠ 0 ∧ x ≠ 1) →
        ∃ s, r.observed_positive_rate + r.observed_negative_rate = NpFloat.fin s ∧ s < 1) ∧
      (ctp + cfp + ctn + cfn < ([2, 1] : List ℤ).length ↔
        ∃ x ∈ ([1, 2] : List ℤ), x ≠ 0 ∧ x ≠ 1) :=
  c10_invalid_labels_amended [2, 1] [1, 2] (by decide) (by decide)

/-- The f1 field of the assembled record is the harmonic-mean expression
in its own precision and recall fields. -/
theorem mkResults_f1 (observed predicted : List ℤ) (tp fp tn ag : List Bool) :
    (mkResults observed predicted tp fp tn ag).f1 =
      NpFloat.fin 2 * (((mkResults observed predicted tp fp tn ag).precision *
        (mkResults observed predicted tp fp tn ag).recall) /
        ((mkResults observed predicted tp fp tn ag).precision +
          (mkResults observed predicted tp fp tn ag).recall)) := rfl

/-- C9: whenever the returned precision and recall are finite and
strictly positive, the returned f1 value 2*precision*recall /
(precision+recall) lies between precision and recall. -/
theorem c9_f1_between (observed predicted : List ℤ)
    (hlen : observed.length = predicted.length) (p q : ℚ)
    (hp : (calculate_accuracy observed predicted).map Results.precision =
      Except.ok (NpFloat.fin p))
    (hq : (calculate_accuracy observed predicted).map Results.recall =
      Except.ok (NpFloat.fin q))
    (hp0 : 0 < p) (hq0 : 0 < q) :
    ∃ f, (calculate_accuracy observed predicted).map Results.f1 =
      Except.ok (NpFloat.fin f) ∧ min p q ≤ f ∧ f ≤ max p q := by
  rw [calc_ok observed predicted hlen] at hp hq ⊢
  simp only [Except.map, Except.ok.injEq] at hp hq ⊢
  have hpq : (0 : ℚ) < p + q := by positivity
  refine ⟨2 * (p * q / (p + q)), ?_, ?_, ?_⟩
  · rw [mkResults_f1, hp, hq, NpFloat.fin_mul_fin, NpFloat.fin_add_fin,
      NpFloat.fin_div_fin _ _ (ne_of_gt hpq), NpFloat.fin_mul_fin]
  · have key : 2 * (p * q / (p + q)) = (2 * p * q) / (p + q) := by ring
    rcases le_total p q with h | h
    · rw [min_eq_left h, key, le_div_iff₀ hpq]
      nlinarith
    · rw [min_eq_right h, key, le_div_iff₀ hpq]
      nlinarith
  · have key : 2 * (p * q / (p + q)) = (2 * p * q) / (p + q) := by ring
    rcases le_total p q with h | h
    · rw [max_eq_right h, key, div_le_iff₀ hpq]
      nlinarith
    · rw [max_eq_left h, key, div_le_iff₀ hpq]
      nlinarith

/-- C9 witness: the theorem applied at a concrete input with precision
one half and recall one. -/
theorem c9_f1_between_witness :
    ∃ f, (calculate_accuracy [0, 1] [1, 1]).map Results.f1 =
      Except.ok (NpFloat.fin f) ∧ min (1/2 : ℚ) 1 ≤ f ∧ f ≤ max (1/2 : ℚ) 1 :=
  c9_f1_between [0, 1] [1, 1] (by decide) (1/2) 1
    (by
      rw [calc_ok [0, 1] [1, 1] (by decide)]
      simp only [Except.map]
      norm_num [mkResults, npMean, npSum, posMask, negMask, List.countP_cons,
        NpFloat.fin_div_fin])
    (by
      rw [calc_ok [0, 1] [1, 1] (by decide)]
      simp only [Except.map]
      norm_num [mkResults, npMean, npSum, posMask, negMask, List.countP_cons,
        NpFloat.fin_div_fin])
    (by norm_num) (by norm_num)

/-- C2: on the worked example of the notebook, observed
[0,0,1,0,1,0,1,0,1,0] and predicted [0,0,1,0,1,0,1,0,0,1], the returned
metrics are accuracy 4/5, precision 3/4, recall 3/4, f1 3/4, specificity
5/6, positive likelihood 9/2, negative likelihood 3/10, false positive
rate 1/6 and false negative rate 1/4. -/
theorem c2_worked_example :
    (calculate_accuracy observedExample predictedExample).map Results.accuracy =
      Except.ok (NpFloat.fin (4/5)) ∧
    (calculate_accuracy observedExample predictedExample).map Results.precision =
      Except.ok (NpFloat.fin (3/4)) ∧
    (calculate_accuracy observedExample predictedExample).map Results.recall =
      Except.ok (NpFloat.fin (3/4)) ∧
    (calculate_accuracy observedExample predictedExample).map Results.f1 =
      Except.ok (NpFloat.fin (3/4)) ∧
    (calculate_accuracy observedExample predictedExample).map Results.specificity =
      Except.ok (NpFloat.fin (5/6)) ∧
    (calculate_accuracy observedExample predictedExample).map Results.positive_likelihood =
      Except.ok (NpFloat.fin (9/2)) ∧
    (calculate_accuracy observedExample predictedExample).map Results.negative_likelihood =
      Except.ok (NpFloat.fin (3/10)) ∧
    (calculate_accuracy observedExample predictedExample).map Results.false_positive_rate =
      Except.ok (NpFloat.fin (1/6)) ∧
    (calculate_accuracy observedExample predictedExample).map Results.false_negative_rate =
      Except.ok (NpFloat.fin (1/4)) := by
  refine ⟨?_, ?_, ?_, ?_, ?_, ?_, ?_, ?_, ?_⟩ <;>
    · rw [calc_ok observedExample predictedExample (by decide)]
      simp only [Except.map]
      norm_num [mkResults, npMean, npSum, posMask, negMask, observedExample,
        predictedExample, List.countP_cons, NpFloat.fin_div_fin, NpFloat.fin_add_fin,
        NpFloat.fin_mul_fin, NpFloat.fin_sub_fin]

/-- C3: on observed [1,1,1] and predicted [0,0,0] the precision
denominator TP+FP is zero and the observed-negative count is zero; the
code raises nothing and silently returns NaN for precision and
specificity while recall is zero, contradicting the required
DegenerateInput error. -/
theorem c3_degenerate_returns_nan :
    (calculate_accuracy [1, 1, 1] [0, 0, 0]).map Results.precision =
      Except.ok NpFloat.nan ∧
    (calculate_accuracy [1, 1, 1] [0, 0, 0]).map Results.specificity =
      Except.ok NpFloat.nan ∧
    (calculate_accuracy [1, 1, 1] [0, 0, 0]).map Results.recall =
      Except.ok (NpFloat.fin 0) := by
  refine ⟨?_, ?_, ?_⟩ <;>
    · rw [calc_ok [1, 1, 1] [0, 0, 0] (by decide)]
      simp only [Except.map]
      norm_num [mkResults, npMean, npSum, posMask, negMask, List.countP_cons,
        NpFloat.fin_div_fin, NpFloat.zero_div_zero]

/-- C5: on observed [0,1,2], which holds the label 2 outside {0,1}, the
code performs no label validation: it returns a full result mapping with
accuracy 2/3 and raises no error, contradicting the required
InvalidLabel error. -/
theorem c5_no_label_validation :
    (calculate_accuracy [0, 1, 2] [0, 1, 1]).toOption.isSome = true ∧
    (calculate_accuracy [0, 1, 2] [0, 1, 1]).map Results.accuracy =
      Except.ok (NpFloat.fin (2/3)) := by
  refine ⟨rfl, ?_⟩
  rw [calc_ok [0, 1, 2] [0, 1, 1] (by decide)]
  simp only [Except.map]
  norm_num [mkResults, npMean, npSum, posMask, negMask, List.countP_cons,
    NpFloat.fin_div_fin]

end TitanicAccuracy
